import Mathlib

/-!
Verification of the MongoDB collection extractor in
`sources/mongodb/helpers.py`: the document sanitizer `clean_document`,
the incremental filter builder `make_query`, and the chunked streaming
loop `collection_documents`.

BSON documents are modelled as a mutual inductive `Value`/`Fields`/`Values`:
a document is a mapping from string keys to values, values may be nested
mappings, sequences, ordinary scalars, or the two MongoDB-specific scalar
kinds `ObjectId` (opaque 12-byte identifier) and `Decimal128`
(high-precision decimal).  `Fields` is an ordered association list
(Python dicts preserve insertion order) and `Values` an ordered sequence.
-/

/-- The opaque 12-byte identifier scalar (`bson.objectid.ObjectId`):
twelve bytes, each in `0..255`. -/
structure ObjectIdData where
  bytes : List Nat
deriving DecidableEq

/-- One hexadecimal digit character, lowercase, as Python `hex` produces. -/
def hexChar (n : Nat) : Char :=
  if n < 10 then Char.ofNat (48 + n) else Char.ofNat (87 + n)

/-- Two-character lowercase hex rendering of one byte. -/
def byteHex (b : Nat) : List Char :=
  [hexChar (b / 16), hexChar (b % 16)]

/-- `str(ObjectId)`: the canonical 24-character lowercase hex string of the
twelve bytes. -/
def ObjectIdData.toStr (o : ObjectIdData) : String :=
  String.mk ((o.bytes.map byteHex).flatten)

/-- The high-precision decimal scalar (`bson.decimal128.Decimal128`):
an exact decimal number `mantissa * 10 ^ exponent`. -/
structure Decimal128Data where
  mantissa : Int
  exponent : Int
deriving DecidableEq

/-- Python's `decimal.Decimal`, likewise an exact decimal number
`mantissa * 10 ^ exponent`. -/
structure DecimalData where
  mantissa : Int
  exponent : Int
deriving DecidableEq

/-- `Decimal128.to_decimal()`: the exact conversion from the BSON decimal
scalar to a Python `Decimal`, carrying mantissa and exponent unchanged. -/
def Decimal128Data.to_decimal (d : Decimal128Data) : DecimalData :=
  ⟨d.mantissa, d.exponent⟩

/-- Exact rational value of a `Decimal128`. -/
def Decimal128Data.toRat (d : Decimal128Data) : ℚ :=
  if 0 ≤ d.exponent then (d.mantissa : ℚ) * (10 : ℚ) ^ d.exponent.toNat
  else (d.mantissa : ℚ) / (10 : ℚ) ^ (-d.exponent).toNat

/-- Exact rational value of a Python `Decimal`. -/
def DecimalData.toRat (d : DecimalData) : ℚ :=
  if 0 ≤ d.exponent then (d.mantissa : ℚ) * (10 : ℚ) ^ d.exponent.toNat
  else (d.mantissa : ℚ) / (10 : ℚ) ^ (-d.exponent).toNat

mutual

/-- A BSON/Python value: plain scalars, the two special scalar kinds,
`other` for any further scalar kind (datetime, binary, ...), nested
mappings and sequences. -/
inductive Value where
  | str (s : String)
  | intV (n : Int)
  | boolV (b : Bool)
  | nullV
  | objectId (o : ObjectIdData)
  | decimal128 (d : Decimal128Data)
  | decimal (d : DecimalData)
  | other (tag : String)
  | dict (fields : Fields)
  | list (items : Values)
deriving DecidableEq

/-- Ordered association list of fields of a mapping. -/
inductive Fields where
  | nil
  | cons (key : String) (value : Value) (rest : Fields)
deriving DecidableEq

/-- Ordered sequence of values. -/
inductive Values where
  | nil
  | cons (head : Value) (tail : Values)
deriving DecidableEq

end

mutual

/-- `CollectionLoader.clean_document` (helpers.py lines 60-76).
A non-mapping input is returned unchanged (line 63-64); a mapping is
rebuilt field by field in order (lines 62, 65, 76). -/
def clean_document : Value → Value
  | .dict kvs => .dict (cleanFields kvs)
  | v => v

/-- The `for key, value in document.items()` loop of `clean_document`
(lines 65-75), preserving key order. -/
def cleanFields : Fields → Fields
  | .nil => .nil
  | .cons k v rest => .cons k (cleanValue v) (cleanFields rest)

/-- The per-field branch of `clean_document` (lines 66-75):
a value that is none of dict, list, Decimal128, ObjectId passes through
(66-67); a dict value is cleaned recursively (68-69); a list value is
mapped element-wise through `clean_document` (70-71); a `Decimal128`
becomes `to_decimal()` (72-73); an `ObjectId` becomes `str(value)`
(74-75). -/
def cleanValue : Value → Value
  | .dict kvs => .dict (cleanFields kvs)
  | .list items => .list (cleanItems items)
  | .decimal128 d => .decimal d.to_decimal
  | .objectId o => .str o.toStr
  | v => v

/-- `[self.clean_document(item) for item in value]` (line 71): each
sequence element goes through top-level `clean_document`, which only
transforms mappings. -/
def cleanItems : Values → Values
  | .nil => .nil
  | .cons v rest => .cons (clean_document v) (cleanItems rest)

end

mutual

/-- `true` iff a value contains an `ObjectId` or a `Decimal128` scalar at
any nesting depth. -/
def hasSpecial : Value → Bool
  | .objectId _ => true
  | .decimal128 _ => true
  | .dict kvs => hasSpecialFields kvs
  | .list items => hasSpecialItems items
  | _ => false

/-- `hasSpecial` over the fields of a mapping. -/
def hasSpecialFields : Fields → Bool
  | .nil => false
  | .cons _ v rest => hasSpecial v || hasSpecialFields rest

/-- `hasSpecial` over the elements of a sequence. -/
def hasSpecialItems : Values → Bool
  | .nil => false
  | .cons v rest => hasSpecial v || hasSpecialItems rest

end

/-- Whether a value is a mapping (`isinstance(value, dict)`). -/
def Value.isDict : Value → Bool
  | .dict _ => true
  | _ => false

/-- Whether a value is a sequence (`isinstance(value, list)`). -/
def Value.isList : Value → Bool
  | .list _ => true
  | _ => false

/-- Whether a value is the decimal scalar (`isinstance(value, Decimal128)`). -/
def Value.isDecimal128 : Value → Bool
  | .decimal128 _ => true
  | _ => false

/-- Whether a value is the identifier scalar (`isinstance(value, ObjectId)`). -/
def Value.isObjectId : Value → Bool
  | .objectId _ => true
  | _ => false

example : clean_document (.dict (.cons "a" (.objectId ⟨[1, 2, 3, 4, 5, 6, 7, 8, 9, 10, 11, 255]⟩) .nil))
    = .dict (.cons "a" (.str "0102030405060708090a0bff") .nil) := by decide

example : clean_document (.dict (.cons "a" (.list (.cons (.objectId ⟨[0]⟩) .nil)) .nil))
    = .dict (.cons "a" (.list (.cons (.objectId ⟨[0]⟩) .nil)) .nil) := by decide

/-- Emptiness test for field lists. -/
def Fields.isNil : Fields → Bool
  | .nil => true
  | _ => false

/-- Emptiness test for value sequences. -/
def Values.isNil : Values → Bool
  | .nil => true
  | _ => false

/-- Python truthiness (`bool(value)`) of a BSON/Python value: `None`,
`0`, `False`, empty strings/sequences/mappings and `Decimal("0")` are
falsy; `ObjectId` and `Decimal128` define no `__bool__`/`__len__` and are
always truthy, as are other scalar objects. -/
def Value.truthy : Value → Bool
  | .str s => !s.isEmpty
  | .intV n => n != 0
  | .boolV b => b
  | .nullV => false
  | .objectId _ => true
  | .decimal128 _ => true
  | .decimal d => d.mantissa != 0
  | .other _ => true
  | .dict kvs => !kvs.isNil
  | .list items => !items.isNil

/-- The `last_value_func` of a `dlt.sources.incremental`: the built-in
`max`, the built-in `min`, or any custom callable. -/
inductive LastValueFunc where
  | max
  | min
  | custom
deriving DecidableEq

/-- The incremental cursor descriptor (`dlt.sources.incremental`): the
cursor field path, the optional last-seen watermark, and the comparison
policy.  `CollectionLoader.__init__` copies `cursor_path` and
`last_value` out of it (helpers.py lines 39-44). -/
structure IncrementalConfig where
  cursor_path : String
  last_value : Option Value
  last_value_func : LastValueFunc
deriving DecidableEq

/-- The filter construction of `CollectionLoader.make_query`
(helpers.py lines 46-58): `if not self.incremental or not
self.last_value` the filter is `{}`; `elif last_value_func is max` it is
`{cursor_field: {"$gte": last_value}}`; `elif last_value_func is min` it
is `{cursor_field: {"$lt": last_value}}`; otherwise `{}`.  A `None`
watermark and a falsy watermark both fail Python's `not self.last_value`
test. -/
def make_query (incremental : Option IncrementalConfig) : Value :=
  match incremental with
  | none => .dict .nil
  | some inc =>
    match inc.last_value with
    | none => .dict .nil
    | some lv =>
      if lv.truthy then
        match inc.last_value_func with
        | .max => .dict (.cons inc.cursor_path (.dict (.cons "$gte" lv .nil)) .nil)
        | .min => .dict (.cons inc.cursor_path (.dict (.cons "$lt" lv .nil)) .nil)
        | .custom => .dict .nil
      else .dict .nil

/-- `CollectionLoader.load_documents` (helpers.py lines 78-81): one
sanitized document per document returned by the store cursor, in cursor
order.  The list `docs` stands for the documents the external
`collection.find(filter_op)` cursor yields. -/
def load_documents (docs : List Value) : List Value :=
  docs.map clean_document

/-- helpers.py line 26. -/
def CHUNK_SIZE : Nat := 10000

/-- The chunking loop of `collection_documents` (helpers.py lines
103-104): `while docs_slice := list(islice(documents_load, CHUNK_SIZE)):
yield docs_slice` — repeatedly take up to `CHUNK_SIZE` elements and stop
at the first empty slice. -/
def chunked : List Value → List (List Value)
  | [] => []
  | x :: xs => ((x :: xs).take CHUNK_SIZE) :: chunked ((x :: xs).drop CHUNK_SIZE)
termination_by l => l.length
decreasing_by
  simp [CHUNK_SIZE]
  omega

/-- `collection_documents` (helpers.py lines 84-104): the sanitized
document stream of `load_documents`, re-grouped into chunks. -/
def collection_documents (docs : List Value) : List (List Value) :=
  chunked (load_documents docs)

/-- The chunk-length profile of a stream of `n` documents: `n / CHUNK_SIZE`
full chunks followed by one chunk of the remaining `n % CHUNK_SIZE`
documents when that remainder is nonzero. -/
def chunkSizes (n : Nat) : List Nat :=
  List.replicate (n / CHUNK_SIZE) CHUNK_SIZE ++
    (if n % CHUNK_SIZE = 0 then [] else [n % CHUNK_SIZE])

theorem chunkSizes_zero : chunkSizes 0 = [] := by
  simp [chunkSizes]

theorem chunkSizes_eq (n : Nat) (h : 0 < n) :
    chunkSizes n = (min CHUNK_SIZE n) :: chunkSizes (n - CHUNK_SIZE) := by
  simp only [chunkSizes, CHUNK_SIZE]
  rcases lt_trichotomy n 10000 with hlt | heq | hgt
  · have e1 : n / 10000 = 0 := by omega
    have e2 : n % 10000 = n := by omega
    have e3 : n - 10000 = 0 := by omega
    have e4 : min 10000 n = n := min_eq_right (by omega)
    rw [e1, e2, e3, e4]
    simp [h.ne']
  · have e1 : n / 10000 = 1 := by omega
    have e2 : n % 10000 = 0 := by omega
    have e3 : n - 10000 = 0 := by omega
    have e4 : min 10000 n = n := min_eq_right (by omega)
    rw [e1, e2, e3, e4, heq]
    simp
  · have e1 : n / 10000 = (n - 10000) / 10000 + 1 := by omega
    have e2 : n % 10000 = (n - 10000) % 10000 := by omega
    have e4 : min 10000 n = 10000 := min_eq_left (by omega)
    rw [e1, e2, e4, List.replicate_succ, List.cons_append]

theorem chunked_map_length (xs : List Value) :
    (chunked xs).map List.length = chunkSizes xs.length := by
  induction xs using chunked.induct with
  | case1 => simp [chunked, chunkSizes]
  | case2 x xs ih =>
    rw [chunked, chunkSizes_eq _ (by simp)]
    simp only [List.map_cons, List.length_take, List.length_drop] at *
    rw [ih]

theorem chunked_flatten (xs : List Value) : (chunked xs).flatten = xs := by
  induction xs using chunked.induct with
  | case1 => simp [chunked]
  | case2 x xs ih =>
    rw [chunked]
    simp [ih, List.take_append_drop]

theorem chunkSizes_mem (n : Nat) : ∀ a ∈ chunkSizes n, 0 < a ∧ a ≤ CHUNK_SIZE := by
  intro a ha
  simp only [chunkSizes, List.mem_append] at ha
  rcases ha with ha | ha
  · rw [List.eq_of_mem_replicate ha]
    simp [CHUNK_SIZE]
  · by_cases hm : n % CHUNK_SIZE = 0
    · rw [if_pos hm] at ha
      simp at ha
    · rw [if_neg hm] at ha
      rw [List.mem_singleton] at ha
      subst ha
      simp only [CHUNK_SIZE] at hm ⊢
      omega

theorem chunkSizes_dropLast (n : Nat) : ∀ a ∈ (chunkSizes n).dropLast, a = CHUNK_SIZE := by
  intro a ha
  simp only [chunkSizes] at ha
  by_cases hm : n % CHUNK_SIZE = 0
  · rw [if_pos hm, List.append_nil] at ha
    exact List.eq_of_mem_replicate (List.mem_of_mem_dropLast ha)
  · rw [if_neg hm, List.dropLast_concat] at ha
    exact List.eq_of_mem_replicate ha

theorem chunkSizes_length (n : Nat) :
    (chunkSizes n).length = (n + CHUNK_SIZE - 1) / CHUNK_SIZE := by
  simp only [chunkSizes, CHUNK_SIZE, List.length_append, List.length_replicate]
  split <;> simp <;> omega

theorem chunked_bounds (xs : List Value) :
    ∀ c ∈ chunked xs, c ≠ [] ∧ c.length ≤ CHUNK_SIZE := by
  induction xs using chunked.induct with
  | case1 =>
    intro c hc
    simp [chunked] at hc
  | case2 x xs ih =>
    intro c hc
    rw [chunked] at hc
    rcases List.mem_cons.mp hc with rfl | hc
    · refine ⟨?_, ?_⟩
      · rw [show CHUNK_SIZE = 9999 + 1 from rfl, List.take_succ_cons]
        exact List.cons_ne_nil _ _
      · rw [List.length_take]
        exact min_le_left _ _
    · exact ih c hc

theorem chunked_dropLast (xs : List Value) :
    ∀ c ∈ (chunked xs).dropLast, c.length = CHUNK_SIZE := by
  intro c hc
  have h1 : c.length ∈ ((chunked xs).dropLast).map List.length :=
    List.mem_map_of_mem _ hc
  rw [List.map_dropLast, chunked_map_length] at h1
  exact chunkSizes_dropLast _ _ h1

theorem chunked_length (xs : List Value) :
    (chunked xs).length = (xs.length + CHUNK_SIZE - 1) / CHUNK_SIZE := by
  have h := congrArg List.length (chunked_map_length xs)
  simpa [chunkSizes_length] using h

mutual

theorem clean_document_idem_aux (v : Value) :
    clean_document (clean_document v) = clean_document v := by
  cases v with
  | dict kvs =>
    simp only [clean_document]
    rw [cleanFields_idem_aux kvs]
  | str s => rfl
  | intV n => rfl
  | boolV b => rfl
  | nullV => rfl
  | objectId o => rfl
  | decimal128 d => rfl
  | decimal d => rfl
  | other t => rfl
  | list items => rfl

theorem cleanFields_idem_aux (fs : Fields) :
    cleanFields (cleanFields fs) = cleanFields fs := by
  cases fs with
  | nil => rfl
  | cons k v rest =>
    simp only [cleanFields]
    rw [cleanValue_idem_aux v, cleanFields_idem_aux rest]

theorem cleanValue_idem_aux (v : Value) :
    cleanValue (cleanValue v) = cleanValue v := by
  cases v with
  | dict kvs =>
    simp only [cleanValue]
    rw [cleanFields_idem_aux kvs]
  | list items =>
    simp only [cleanValue]
    rw [cleanItems_idem_aux items]
  | str s => rfl
  | intV n => rfl
  | boolV b => rfl
  | nullV => rfl
  | objectId o => rfl
  | decimal128 d => rfl
  | decimal d => rfl
  | other t => rfl

theorem cleanItems_idem_aux (vs : Values) :
    cleanItems (cleanItems vs) = cleanItems vs := by
  cases vs with
  | nil => rfl
  | cons v rest =>
    simp only [cleanItems]
    rw [clean_document_idem_aux v, cleanItems_idem_aux rest]

end

mutual

theorem clean_document_id_aux (v : Value) (h : hasSpecial v = false) :
    clean_document v = v := by
  cases v with
  | dict kvs =>
    simp only [hasSpecial] at h
    simp only [clean_document]
    rw [cleanFields_id_aux kvs h]
  | str s => rfl
  | intV n => rfl
  | boolV b => rfl
  | nullV => rfl
  | objectId o => rfl
  | decimal128 d => rfl
  | decimal d => rfl
  | other t => rfl
  | list items => rfl

theorem cleanFields_id_aux (fs : Fields) (h : hasSpecialFields fs = false) :
    cleanFields fs = fs := by
  cases fs with
  | nil => rfl
  | cons k v rest =>
    simp only [hasSpecialFields, Bool.or_eq_false_iff] at h
    simp only [cleanFields]
    rw [cleanValue_id_aux v h.1, cleanFields_id_aux rest h.2]

theorem cleanValue_id_aux (v : Value) (h : hasSpecial v = false) :
    cleanValue v = v := by
  cases v with
  | dict kvs =>
    simp only [hasSpecial] at h
    simp only [cleanValue]
    rw [cleanFields_id_aux kvs h]
  | list items =>
    simp only [hasSpecial] at h
    simp only [cleanValue]
    rw [cleanItems_id_aux items h]
  | str s => rfl
  | intV n => rfl
  | boolV b => rfl
  | nullV => rfl
  | objectId o => simp [hasSpecial] at h
  | decimal128 d => simp [hasSpecial] at h
  | decimal d => rfl
  | other t => rfl

theorem cleanItems_id_aux (vs : Values) (h : hasSpecialItems vs = false) :
    cleanItems vs = vs := by
  cases vs with
  | nil => rfl
  | cons v rest =>
    simp only [hasSpecialItems, Bool.or_eq_false_iff] at h
    simp only [cleanItems]
    rw [clean_document_id_aux v h.1, cleanItems_id_aux rest h.2]

end

/-- A 12-byte identifier fixture. -/
def oid0 : ObjectIdData := ⟨[0, 1, 2, 3, 4, 5, 6, 7, 8, 9, 10, 11]⟩

/-- A document whose sequence field holds an `ObjectId` as a direct
element: `{"a": [ObjectId(...)]}`. -/
def listElemDoc : Value :=
  .dict (.cons "a" (.list (.cons (.objectId oid0) .nil)) .nil)

/-- C1: the spec guarantees that sanitization leaves no `ObjectId` or
`Decimal128` at any nesting depth and converts every `ObjectId` to its
hex string.  The code violates this: an `ObjectId` that is a direct
element of a sequence is passed through `clean_document`'s non-mapping
base case and survives unconverted, so the output of
`clean_document({"a": [ObjectId(...)]})` still contains the special
scalar and is not the spec-predicted string substitution. -/
theorem clean_document_list_element_not_converted :
    clean_document listElemDoc = listElemDoc ∧
    hasSpecial (clean_document listElemDoc) = true ∧
    clean_document listElemDoc ≠
      .dict (.cons "a" (.list (.cons (.str oid0.toStr) .nil)) .nil) := by
  decide

/-- C2: sequence values are sanitized by mapping top-level
`clean_document` over the elements, and `clean_document` returns any
non-mapping input unchanged, so an `ObjectId` or `Decimal128` appearing
as a direct sequence element reaches the output exactly as in the
input, unconverted. -/
theorem clean_document_sequence_elementwise :
    (∀ (k : String) (items : Values) (rest : Fields),
      clean_document (.dict (.cons k (.list items) rest)) =
        .dict (.cons k (.list (cleanItems items)) (cleanFields rest))) ∧
    (∀ (v : Value) (vs : Values),
      cleanItems (.cons v vs) = .cons (clean_document v) (cleanItems vs)) ∧
    (∀ o : ObjectIdData, clean_document (.objectId o) = .objectId o) ∧
    (∀ d : Decimal128Data, clean_document (.decimal128 d) = .decimal128 d) :=
  ⟨fun _ _ _ => rfl, fun _ _ => rfl, fun _ => rfl, fun _ => rfl⟩

/-- An incremental cursor whose watermark is present but falsy (`0`)
with comparison policy `max`. -/
def inc0 : IncrementalConfig := ⟨"f", some (.intV 0), .max⟩

/-- C3 counterexample: with a present watermark `0` and policy `max` the
claim predicts the filter `{"f": {"$gte": 0}}`, but `make_query` builds
the empty filter, because Python's `not self.last_value` is true for a
falsy watermark, not only for an absent one. -/
theorem make_query_zero_watermark_cex :
    make_query (some inc0) = .dict .nil ∧
    make_query (some inc0) ≠
      .dict (.cons "f" (.dict (.cons "$gte" (.intV 0) .nil)) .nil) := by
  decide

/-- C3 amended: exactly one branch fires per invocation, with the empty
branch taken when the cursor is absent, the watermark absent, or the
watermark falsy; `$gte`/`$lt`/empty fire for policies `max`/`min`/custom
only when the watermark is truthy. -/
theorem make_query_branches (inc : Option IncrementalConfig) :
    (inc = none → make_query inc = .dict .nil) ∧
    (∀ i, inc = some i → i.last_value = none → make_query inc = .dict .nil) ∧
    (∀ i w, inc = some i → i.last_value = some w → w.truthy = false →
      make_query inc = .dict .nil) ∧
    (∀ i w, inc = some i → i.last_value = some w → w.truthy = true →
      i.last_value_func = .max →
      make_query inc = .dict (.cons i.cursor_path (.dict (.cons "$gte" w .nil)) .nil)) ∧
    (∀ i w, inc = some i → i.last_value = some w → w.truthy = true →
      i.last_value_func = .min →
      make_query inc = .dict (.cons i.cursor_path (.dict (.cons "$lt" w .nil)) .nil)) ∧
    (∀ i w, inc = some i → i.last_value = some w → w.truthy = true →
      i.last_value_func = .custom → make_query inc = .dict .nil) := by
  refine ⟨?_, ?_, ?_, ?_, ?_, ?_⟩
  · rintro rfl
    rfl
  · rintro i rfl hl
    simp [make_query, hl]
  · rintro i w rfl hl ht
    simp [make_query, hl, ht]
  · rintro i w rfl hl ht hf
    simp [make_query, hl, ht, hf]
  · rintro i w rfl hl ht hf
    simp [make_query, hl, ht, hf]
  · rintro i w rfl hl ht hf
    simp [make_query, hl, ht, hf]

/-- An incremental cursor with truthy watermark `5` and policy `max`. -/
def inc5 : IncrementalConfig := ⟨"f", some (.intV 5), .max⟩

/-- Witness for the amended C3 at concrete inputs. -/
theorem make_query_branches_witness :
    make_query (some inc5) =
      .dict (.cons "f" (.dict (.cons "$gte" (.intV 5) .nil)) .nil) ∧
    make_query none = .dict .nil :=
  ⟨(make_query_branches (some inc5)).2.2.2.1 inc5 (.intV 5) rfl rfl (by decide) rfl,
   (make_query_branches none).1 rfl⟩

/-- C4: a present but falsy watermark (`0`, `""`, `False`, ...) makes
`make_query` build the empty filter exactly as if the watermark were
absent, for every comparison policy; a non-empty filter is only ever
built from a truthy watermark. -/
theorem make_query_falsy_watermark (i : IncrementalConfig) (w : Value)
    (hw : i.last_value = some w) :
    (w.truthy = false →
      make_query (some i) = .dict .nil ∧
      make_query (some i) = make_query (some ⟨i.cursor_path, none, i.last_value_func⟩)) ∧
    (make_query (some i) ≠ .dict .nil → w.truthy = true) := by
  constructor
  · intro ht
    constructor
    · simp [make_query, hw, ht]
    · simp [make_query, hw, ht]
  · intro hne
    by_contra hfalse
    have ht : w.truthy = false := by
      cases h : w.truthy
      · rfl
      · exact absurd h hfalse
    exact hne (by simp [make_query, hw, ht])

/-- Witness for C4 at watermark `0` and policy `max`. -/
theorem make_query_falsy_watermark_witness :
    Value.truthy (.intV 0) = false ∧ make_query (some inc0) = .dict .nil :=
  ⟨by decide, ((make_query_falsy_watermark inc0 (.intV 0) rfl).1 (by decide)).1⟩

/-- A small sanitized-stable document fixture. -/
def sampleDoc : Value := .dict (.cons "x" (.intV 1) .nil)

/-- A store of 25000 documents. -/
def docs25000 : List Value := List.replicate 25000 sampleDoc

theorem collection_documents_eq (docs : List Value) :
    collection_documents docs = chunked (docs.map clean_document) := rfl

theorem docs25000_length : docs25000.length = 25000 := by
  show (List.replicate 25000 sampleDoc).length = 25000
  rw [List.length_replicate]

/-- C5: for a store of `N > 10000` documents the stream yields exactly
`ceil(N/10000)` chunks, every chunk except possibly the last has size
exactly 10000, no chunk exceeds 10000, and concatenating the chunks in
order reproduces the sanitized document sequence; with `N = 25000` it
yields exactly 3 chunks of sizes 10000, 10000, 5000. -/
theorem collection_documents_chunking :
    (∀ docs : List Value, CHUNK_SIZE < docs.length →
      (collection_documents docs).length =
        (docs.length + CHUNK_SIZE - 1) / CHUNK_SIZE ∧
      (∀ c ∈ (collection_documents docs).dropLast, c.length = CHUNK_SIZE) ∧
      (∀ c ∈ collection_documents docs, c.length ≤ CHUNK_SIZE) ∧
      (collection_documents docs).flatten = docs.map clean_document) ∧
    (collection_documents docs25000).map List.length =
      [CHUNK_SIZE, CHUNK_SIZE, 5000] ∧
    (collection_documents docs25000).length = 3 := by
  have hkey : ∀ docs : List Value,
      collection_documents docs = chunked (docs.map clean_document) :=
    fun _ => rfl
  refine ⟨?_, ?_, ?_⟩
  · intro docs _
    rw [hkey]
    refine ⟨?_, ?_, ?_, ?_⟩
    · rw [chunked_length, List.length_map]
    · exact chunked_dropLast _
    · intro c hc
      exact (chunked_bounds _ c hc).2
    · exact chunked_flatten _
  · rw [hkey, chunked_map_length, List.length_map, docs25000_length]
    decide
  · have h := congrArg List.length
      (show (collection_documents docs25000).map List.length =
        [CHUNK_SIZE, CHUNK_SIZE, 5000] by
          rw [hkey, chunked_map_length, List.length_map, docs25000_length]
          decide)
    simpa using h

/-- Witness for C5 at the 25000-document store. -/
theorem collection_documents_chunking_witness :
    CHUNK_SIZE < docs25000.length ∧
    (collection_documents docs25000).flatten = docs25000.map clean_document :=
  ⟨by rw [docs25000_length]; decide,
   (collection_documents_chunking.1 docs25000
      (by rw [docs25000_length]; decide)).2.2.2⟩

/-- C6: on a document with no `ObjectId` and no `Decimal128` at any
nesting depth, `clean_document` is the identity under structural
equality. -/
theorem clean_document_identity_on_json_safe (v : Value)
    (h : hasSpecial v = false) : clean_document v = v :=
  clean_document_id_aux v h

/-- A special-scalar-free document fixture. -/
def safeDoc : Value :=
  .dict (.cons "a" (.intV 1) (.cons "b" (.list (.cons (.str "x") .nil)) .nil))

/-- Witness for C6 at a concrete JSON-safe document. -/
theorem clean_document_identity_on_json_safe_witness :
    hasSpecial safeDoc = false ∧ clean_document safeDoc = safeDoc :=
  ⟨by decide, clean_document_identity_on_json_safe safeDoc (by decide)⟩

/-- C7: `clean_document` is idempotent: sanitizing an already-sanitized
document returns it unchanged, for every document. -/
theorem clean_document_idempotent (v : Value) :
    clean_document (clean_document v) = clean_document v :=
  clean_document_idem_aux v

/-- C8: a `Decimal128` mapping value becomes exactly `to_decimal()` of
it, and that conversion is lossless: the mantissa, the exponent and the
exact rational value of the decimal are all preserved (no float
rounding anywhere). -/
theorem clean_document_decimal_exact (k : String) (d : Decimal128Data)
    (rest : Fields) :
    clean_document (.dict (.cons k (.decimal128 d) rest)) =
      .dict (.cons k (.decimal d.to_decimal) (cleanFields rest)) ∧
    d.to_decimal.toRat = d.toRat ∧
    d.to_decimal.mantissa = d.mantissa ∧
    d.to_decimal.exponent = d.exponent :=
  ⟨rfl, rfl, rfl, rfl⟩

/-- C9: `clean_document` is total and never raises: any value that is
not a mapping, sequence, `Decimal128` or `ObjectId` — including unknown
scalar kinds — is passed through unchanged, both as a top-level input
(the non-mapping base case) and as a mapping value. -/
theorem clean_document_total_passthrough (v : Value)
    (h1 : v.isDict = false) :
    clean_document v = v ∧
    (v.isList = false → v.isDecimal128 = false → v.isObjectId = false →
      ∀ (k : String) (rest : Fields),
        clean_document (.dict (.cons k v rest)) =
          .dict (.cons k v (cleanFields rest))) := by
  cases v with
  | dict kvs => simp [Value.isDict] at h1
  | list items =>
    refine ⟨rfl, ?_⟩
    intro hl
    simp [Value.isList] at hl
  | decimal128 d =>
    refine ⟨rfl, ?_⟩
    intro _ hd
    simp [Value.isDecimal128] at hd
  | objectId o =>
    refine ⟨rfl, ?_⟩
    intro _ _ ho
    simp [Value.isObjectId] at ho
  | str s => exact ⟨rfl, fun _ _ _ _ _ => rfl⟩
  | intV n => exact ⟨rfl, fun _ _ _ _ _ => rfl⟩
  | boolV b => exact ⟨rfl, fun _ _ _ _ _ => rfl⟩
  | nullV => exact ⟨rfl, fun _ _ _ _ _ => rfl⟩
  | decimal d => exact ⟨rfl, fun _ _ _ _ _ => rfl⟩
  | other t => exact ⟨rfl, fun _ _ _ _ _ => rfl⟩

/-- Witness for C9 at an unknown scalar kind. -/
theorem clean_document_total_passthrough_witness :
    clean_document (.other "datetime") = .other "datetime" ∧
    clean_document (.dict (.cons "a" (.other "datetime") .nil)) =
      .dict (.cons "a" (.other "datetime") .nil) :=
  ⟨(clean_document_total_passthrough (.other "datetime") (by decide)).1,
   (clean_document_total_passthrough (.other "datetime") (by decide)).2
     (by decide) (by decide) (by decide) "a" .nil⟩

theorem chunked_singleton (v : Value) : chunked [v] = [[v]] := by
  rw [chunked, show CHUNK_SIZE = 9999 + 1 from rfl, List.take_succ_cons,
    List.drop_succ_cons, List.take_nil, List.drop_nil]
  simp [chunked]

/-- C10: every chunk the stream yields is non-empty and holds at most
10000 documents; a store with zero matching documents yields no chunks
at all. -/
theorem collection_documents_chunk_bounds (docs : List Value) :
    (∀ c ∈ collection_documents docs, c ≠ [] ∧ c.length ≤ CHUNK_SIZE) ∧
    (docs = [] → collection_documents docs = []) := by
  constructor
  · intro c hc
    exact chunked_bounds _ c hc
  · rintro rfl
    show chunked (List.map clean_document []) = []
    simp [chunked]

/-- Witness for C10 at a one-document store. -/
theorem collection_documents_chunk_bounds_witness :
    [clean_document sampleDoc] ≠ ([] : List (Value)) ∧
    [clean_document sampleDoc].length ≤ CHUNK_SIZE :=
  (collection_documents_chunk_bounds [sampleDoc]).1 [clean_document sampleDoc]
    (by
      show [clean_document sampleDoc] ∈ chunked (List.map clean_document [sampleDoc])
      rw [List.map_singleton, chunked_singleton]
      exact List.mem_singleton_self _)
